import Mathlib

/-!
Shallow embedding of src/libloragw/src/loragw_com_linux.c (PicoCell USB
command transport).  Byte-stream reads are modelled by a list of read
events: each call to read(2) consumes one event and delivers at most the
requested number of bytes.  Machine integers are modelled as Nat with
explicit truncation where the C code casts.
-/

namespace LoragwCom

/-- Modelled from the spec: return codes OK / KO of loragw_mcu.h are missing
from src/; the spec only fixes them as distinct Success / Error codes, with
OK nonzero (the sync loop treats a nonzero checkcmd result as garbage). -/
def OK : Int := 1

/-- Modelled from the spec: the Error return code paired with OK. -/
def KO : Int := 0

/-- Modelled from the spec: public success code of loragw_com.h (missing
from src/), surfaced as the boolean-style Success outcome. -/
def LGW_COM_SUCCESS : Int := 0

/-- Modelled from the spec: public error code of loragw_com.h. -/
def LGW_COM_ERROR : Int := -1

/-- Modelled from the spec: ACK_OK code in answer payload byte 0 (numeric
value from the spec's end-to-end scenarios, ACK_OK taken as 0x01). -/
def ACK_OK : Nat := 1

/-- Modelled from the spec: ACK_KO code in answer payload byte 0 (the
spec's T3 scenario uses 0x00 as the ACK_KO example value). -/
def ACK_KO : Nat := 0

/-- Modelled from the spec: EXPECTED_FW_VERSION (STM32FWVERSION of
loragw_mcu.h, missing from src/); the concrete value is fixed by the
firmware contract, the spec's T3 scenario value is used here. -/
def STM32FWVERSION : Nat := 0x01020304

/-- The opcode bytes accepted by checkcmd_linux (source lines 135-156), in
source order: r s t u p e w x y z a b c d f h q i j l m n. -/
def validCmds : List Nat :=
  [114, 115, 116, 117, 112, 101, 119, 120, 121, 122, 97, 98,
   99, 100, 102, 104, 113, 105, 106, 108, 109, 110]

/-- checkcmd_linux (lines 133-161): a switch over the opcode byte that
returns 0 for every listed command letter and OK for everything else. -/
def checkcmd_linux (cmd : Nat) : Int :=
  if cmd ∈ validCmds then 0 else OK

/-- One read(2) call on the CDC stream either fails (negative return) or
delivers the bytes currently available (possibly none). -/
inductive RdEvt where
  | fail : RdEvt
  | data : List Nat → RdEvt
deriving DecidableEq, Repr

/-- AnsSettings_t: the parsed answer record filled by ReceiveAns_linux. -/
structure AnsSettings where
  Cmd : Nat
  LenMsb : Nat
  Len : Nat
  Rxbuf : List Nat
deriving DecidableEq, Repr

/-- Header sync loop of ReceiveAns_linux (lines 213-230).  The C counter
cpttimer counts up and aborts once it exceeds 15; here tries counts the
remaining allowed iterations (tries = 15 - cpttimer), so the loop performs
at most 16 reads and the 16th always aborts, exactly as in the source.
Returns the accepted 3-byte header with the remaining events, or none for
KO, together with the list of byte counts requested from read(2). -/
def syncLoop (events : List RdEvt) (buf : List Nat) (tries : Nat) :
    Option (List Nat × List RdEvt) × List Nat :=
  if checkcmd_linux (buf.getD 0 0) = 0 then
    (some (buf, events), [])
  else
    match events with
    | [] =>
      match tries with
      | 0 => (none, [3])
      | t + 1 =>
        let r := syncLoop [] buf t
        (r.1, 3 :: r.2)
    | RdEvt.fail :: rest =>
      match tries with
      | 0 => (none, [3])
      | t + 1 =>
        let r := syncLoop rest buf t
        (r.1, 3 :: r.2)
    | RdEvt.data l :: rest =>
      if l.length = 0 then
        match tries with
        | 0 => (none, [3])
        | t + 1 =>
          let r := syncLoop rest buf t
          (r.1, 3 :: r.2)
      else if l.length < 3 then
        (none, [3])
      else
        match tries with
        | 0 => (none, [3])
        | t + 1 =>
          let r := syncLoop rest (l.take 3) t
          (r.1, 3 :: r.2)

/-- Result of ReceiveAns_linux: the parsed answer (none for KO) and the
trace of byte counts requested from read(2). -/
structure RecvOut where
  result : Option AnsSettings
  reqs : List Nat
deriving DecidableEq, Repr

/-- ReceiveAns_linux (lines 201-258): sync to a valid header, compute the
declared length, apply the USB 64-byte padding quirk to the payload read
size, fail on a short payload read, and deliver the declared bytes. -/
def ReceiveAns_linux (events : List RdEvt) : RecvOut :=
  let s := syncLoop events [0, 0, 0] 15
  match s.1 with
  | none => ⟨none, s.2⟩
  | some (buf, rest) =>
    let m := buf.getD 1 0
    let l := buf.getD 2 0
    let cmd_size := (m <<< 8) + l
    let buf_size := if (cmd_size + 3) % 64 = 0 then cmd_size + 1 else cmd_size
    match rest with
    | [] =>
      if buf_size = 0 then
        ⟨some ⟨buf.getD 0 0, m, l, []⟩, s.2 ++ [buf_size]⟩
      else
        ⟨none, s.2 ++ [buf_size]⟩
    | RdEvt.fail :: _ => ⟨none, s.2 ++ [buf_size]⟩
    | RdEvt.data p :: _ =>
      if min p.length buf_size < buf_size then
        ⟨none, s.2 ++ [buf_size]⟩
      else
        ⟨some ⟨buf.getD 0 0, m, l, p.take cmd_size⟩, s.2 ++ [buf_size]⟩

/-- A read event the sync loop tolerates and retries on: a failed read, an
empty read, or a full 3-byte read whose first byte is not a valid opcode. -/
def tolerable : RdEvt → Prop
  | RdEvt.fail => True
  | RdEvt.data l => l.length = 0 ∨ (3 ≤ l.length ∧ checkcmd_linux (l.getD 0 0) ≠ 0)

instance : DecidablePred tolerable := fun e => by
  unfold tolerable; cases e <;> infer_instance

/-- The 21 opcodes the spec's section 6 lists as the valid-cmd set (claim
C5's set); the source additionally accepts the letter e (101). -/
def claimedCmds : List Nat :=
  [114, 119, 115, 120, 116, 121, 117, 122, 112, 97,
   98, 102, 99, 100, 104, 105, 106, 113, 108, 109, 110]

/-- CmdSettings_t: the request record passed to SendCmd_linux; also the
record the burst sequencer builds for each chunk. -/
structure CmdSettings where
  Cmd : Nat
  LenMsb : Nat
  Len : Nat
  Address : Nat
  Value : List Nat
deriving DecidableEq, Repr

/-- Payload length Clen = Len + (LenMsb shifted left by 8) computed by
SendCmd_linux (line 167), a uint16_t. -/
def Clen (cs : CmdSettings) : Nat := (cs.Len + (cs.LenMsb <<< 8)) % 65536

/-- Total wire length Tlen = CMD_HEADER_TX_SIZE + Clen (line 168), a
uint16_t. -/
def Tlen (cs : CmdSettings) : Nat := (4 + Clen cs) % 65536

/-- The request frame SendCmd_linux builds (lines 173-182): header bytes
cmd, LenMsb, Len, Address followed by Clen payload bytes from Value (the
zero-initialized buffer supplies 0 beyond Value's length). -/
def sendFrame (cs : CmdSettings) : List Nat :=
  [cs.Cmd, cs.LenMsb, cs.Len, cs.Address] ++
    (List.range (Clen cs)).map (fun i => cs.Value.getD i 0)

/-- SendCmd_linux (lines 165-197), given the byte count the underlying
write returned (negative models a failed write): only a negative write
return yields KO; an incomplete write merely logs a warning and the
function still returns OK (lines 190-192). -/
def SendCmd_linux (cs : CmdSettings) (lencheck : Int) : Int :=
  if lencheck < 0 then KO else OK

/-- Wire and lock actions a public operation performs, in order. -/
inductive Act where
  | lock : Act
  | unlock : Act
  | send : Act
  | recv : Act
deriving DecidableEq, Repr

/-- Checks that a trace of actions handles the link lock correctly when
started at lock depth d: wire actions happen only while the lock is held
(depth exactly 1), unlock only from depth 1, and the trace ends with the
lock free. -/
def lockCheck : List Act → Nat → Bool
  | [], d => d == 0
  | Act.lock :: t, d => lockCheck t (d + 1)
  | Act.unlock :: t, d => d == 1 && lockCheck t (d - 1)
  | Act.send :: t, d => d == 1 && lockCheck t d
  | Act.recv :: t, d => d == 1 && lockCheck t d

/-- Result of lgw_com_w_linux: return code, the request record built, and
the lock/wire actions performed. -/
structure WOut where
  ret : Int
  req : CmdSettings
  acts : List Act
deriving DecidableEq, Repr

/-- lgw_com_w_linux (lines 354-381): build a write-register command with
opcode w, lock, send (the send result is not checked by the source),
receive one answer, and unlock on both the KO and the OK path. -/
def lgw_com_w_linux (address data : Nat) (events : List RdEvt) : WOut :=
  let mystruct : CmdSettings := ⟨119, 0, 1, address, [data]⟩
  match (ReceiveAns_linux events).result with
  | none => ⟨LGW_COM_ERROR, mystruct, [Act.lock, Act.send, Act.recv, Act.unlock]⟩
  | some _ => ⟨LGW_COM_SUCCESS, mystruct, [Act.lock, Act.send, Act.recv, Act.unlock]⟩

/-- Result of lgw_com_r_linux: return code, request, the byte written to
the out parameter (none when the call fails and leaves it unwritten), and
the actions performed. -/
structure ROut where
  ret : Int
  req : CmdSettings
  dataOut : Option Nat
  acts : List Act
deriving DecidableEq, Repr

/-- lgw_com_r_linux (lines 385-415): opcode r, then as for the write
path; on success the answer's first payload byte is stored. -/
def lgw_com_r_linux (address : Nat) (events : List RdEvt) : ROut :=
  let mystruct : CmdSettings := ⟨114, 0, 1, address, [0]⟩
  match (ReceiveAns_linux events).result with
  | none => ⟨LGW_COM_ERROR, mystruct, none, [Act.lock, Act.send, Act.recv, Act.unlock]⟩
  | some a => ⟨LGW_COM_SUCCESS, mystruct, some (a.Rxbuf.getD 0 0),
      [Act.lock, Act.send, Act.recv, Act.unlock]⟩

/-- Result of the open handshake: return code, whether a handle remains
published through com_target_ptr, whether the byte-stream endpoint was
closed again, the handshake request, and the actions performed. -/
structure OpenOut where
  ret : Int
  published : Bool
  fdClosed : Bool
  req : CmdSettings
  acts : List Act
deriving DecidableEq, Repr

/-- lgw_com_open_linux (lines 288-325) for a port that opened and was
configured successfully: the handle is stored and published through
com_target_ptr (lines 296-297) before the firmware handshake runs; the
handshake fails only when the answer's first payload byte equals ACK_KO
or no answer is received, and no failure path closes the endpoint or
unpublishes the handle. -/
def lgw_com_open_linux (events : List RdEvt) : OpenOut :=
  let v := STM32FWVERSION
  let mystruct : CmdSettings :=
    ⟨108, 0, 4, 0, [(v >>> 24) % 256, (v >>> 16) % 256, (v >>> 8) % 256, v % 256]⟩
  match (ReceiveAns_linux events).result with
  | some a =>
    if a.Rxbuf.getD 0 0 = ACK_KO then
      ⟨LGW_COM_ERROR, true, false, mystruct, [Act.lock, Act.send, Act.recv, Act.unlock]⟩
    else
      ⟨LGW_COM_SUCCESS, true, false, mystruct, [Act.lock, Act.send, Act.recv, Act.unlock]⟩
  | none => ⟨LGW_COM_ERROR, true, false, mystruct, [Act.lock, Act.send, Act.recv, Act.unlock]⟩

/-- The w bytes the burst loop copies out of the caller's buffer starting
at offset a (the C for-loop reads data with indices i + cptalc; reads past
the buffer model the indeterminate bytes as 0). -/
def slice (data : List Nat) (a w : Nat) : List Nat :=
  (List.range w).map (fun i => data.getD (i + a) 0)

/-- Result of a write burst: return code, the chunk requests emitted in
order, and the actions performed. -/
structure WbOut where
  ret : Int
  chunks : List CmdSettings
  acts : List Act
deriving DecidableEq, Repr

/-- Chunking loop of lgw_com_wb_linux (lines 439-488) with the per-chunk
answer outcomes supplied by the oracle ans (true = ReceiveAns_linux
returned OK for that chunk).  Wp + 1 plays the role of the ATOMICTX
constant (its header is missing from src/; any positive value - with
ATOMICTX = 0 the C loop would not terminate).  k counts the chunks
already sent; chunk_size and cptalc are the loop variables of the
source. -/
def wbLoop (Wp size addr : Nat) (data : List Nat) (ans : Nat → Bool)
    (k chunk_size cptalc : Nat) : WbOut :=
  if h : Wp + 1 < chunk_size then
    let cmd := if chunk_size = size then 120 else 121
    let c : CmdSettings :=
      ⟨cmd, ((Wp + 1) >>> 8) % 256, ((Wp + 1) - (((Wp + 1) >>> 8) <<< 8)) % 256, addr,
        slice data cptalc (Wp + 1)⟩
    if ans k then
      let r := wbLoop Wp size addr data ans (k + 1) (chunk_size - (Wp + 1)) (cptalc + (Wp + 1))
      ⟨r.ret, c :: r.chunks, Act.send :: Act.recv :: r.acts⟩
    else
      ⟨LGW_COM_ERROR, [c], [Act.send, Act.recv, Act.unlock]⟩
  else
    if 0 < chunk_size then
      let msb := (chunk_size >>> 8) % 256
      let lsb := (chunk_size - ((chunk_size >>> 8) <<< 8)) % 256
      let cmd := if size ≤ Wp + 1 then 97 else 122
      let c : CmdSettings := ⟨cmd, msb, lsb, addr, slice data cptalc ((msb <<< 8) + lsb)⟩
      if ans k then
        ⟨LGW_COM_SUCCESS, [c], [Act.send, Act.recv, Act.unlock]⟩
      else
        ⟨LGW_COM_ERROR, [c], [Act.send, Act.recv, Act.unlock]⟩
    else
      ⟨LGW_COM_ERROR, [], [Act.unlock]⟩
termination_by chunk_size
decreasing_by omega

/-- lgw_com_wb_linux (lines 419-494): lock, run the chunking loop on the
full size; every terminal path of the loop unlocks. -/
def lgw_com_wb_linux (Wp addr : Nat) (data : List Nat) (size : Nat)
    (ans : Nat → Bool) : WbOut :=
  let r := wbLoop Wp size addr data ans 0 size 0
  ⟨r.ret, r.chunks, Act.lock :: r.acts⟩

/-- Result of a read burst: return code, chunk requests emitted, bytes
copied into the caller's buffer, and the actions performed. -/
structure RbOut where
  ret : Int
  chunks : List CmdSettings
  out : List Nat
  acts : List Act
deriving DecidableEq, Repr

/-- Chunking loop of lgw_com_rb_linux (lines 518-573); the oracle gives
each chunk's answer payload (none = ReceiveAns_linux returned KO).
Rp + 1 plays the role of the ATOMICRX constant (missing from src/). -/
def rbLoop (Rp size addr : Nat) (ans : Nat → Option (List Nat))
    (k chunk_size : Nat) (acc : List Nat) : RbOut :=
  if h : Rp + 1 < chunk_size then
    let cmd := if chunk_size = size then 115 else 116
    let c : CmdSettings :=
      ⟨cmd, 0, 2, addr,
        [((Rp + 1) >>> 8) % 256, ((Rp + 1) - (((Rp + 1) >>> 8) <<< 8)) % 256]⟩
    match ans k with
    | some buf =>
      let r := rbLoop Rp size addr ans (k + 1) (chunk_size - (Rp + 1))
        (acc ++ (List.range (Rp + 1)).map (fun i => buf.getD i 0))
      ⟨r.ret, c :: r.chunks, r.out, Act.send :: Act.recv :: r.acts⟩
    | none => ⟨LGW_COM_ERROR, [c], acc, [Act.send, Act.recv, Act.unlock]⟩
  else
    if 0 < chunk_size then
      let cmd := if size ≤ Rp + 1 then 112 else 117
      let c : CmdSettings :=
        ⟨cmd, 0, 2, addr,
          [(chunk_size >>> 8) % 256, (chunk_size - ((chunk_size >>> 8) <<< 8)) % 256]⟩
      match ans k with
      | some buf =>
        ⟨LGW_COM_SUCCESS, [c],
          acc ++ (List.range chunk_size).map (fun i => buf.getD i 0),
          [Act.send, Act.recv, Act.unlock]⟩
      | none => ⟨LGW_COM_ERROR, [c], acc, [Act.send, Act.recv, Act.unlock]⟩
    else
      ⟨LGW_COM_ERROR, [], acc, [Act.unlock]⟩
termination_by chunk_size
decreasing_by omega

/-- lgw_com_rb_linux (lines 498-579). -/
def lgw_com_rb_linux (Rp addr size : Nat) (ans : Nat → Option (List Nat)) : RbOut :=
  let r := rbLoop Rp size addr ans 0 size []
  ⟨r.ret, r.chunks, r.out, Act.lock :: r.acts⟩

/-! ## Helper lemmas about the sync loop -/

/-- Taking a positive-length front of a list keeps its first element. -/
theorem getD_zero_take (n : Nat) (l : List Nat) (hn : 0 < n) :
    (l.take n).getD 0 0 = l.getD 0 0 := by
  cases l with
  | nil => simp
  | cons a t =>
    match n, hn with
    | n + 1, _ => simp [List.getD]

/-- When the buffer already holds a valid command byte the sync loop exits
at once with the buffer and the untouched stream. -/
theorem syncLoop_done (evs : List RdEvt) (buf : List Nat) (tries : Nat)
    (h : checkcmd_linux (buf.getD 0 0) = 0) :
    syncLoop evs buf tries = (some (buf, evs), []) := by
  rw [syncLoop.eq_def, if_pos h]

/-- A full 3-byte read of a valid header is accepted after a single read
whenever at least one retry remains. -/
theorem syncLoop_accept (c m l : Nat) (rest : List RdEvt) (buf : List Nat) (t : Nat)
    (hbuf : ¬ checkcmd_linux (buf.getD 0 0) = 0) (hc : checkcmd_linux c = 0) :
    syncLoop (RdEvt.data [c, m, l] :: rest) buf (t + 1) = (some ([c, m, l], rest), [3]) := by
  rw [syncLoop.eq_def]
  simp only [if_neg hbuf]
  rw [if_neg (by simp), if_neg (by simp), show List.take 3 [c, m, l] = [c, m, l] from rfl,
    syncLoop_done rest [c, m, l] t (by simpa [List.getD] using hc)]

/-- Consuming a run of tolerable (failed / empty / garbage) reads costs one
retry per read, requests 3 bytes each time, and leaves the loop in a state
whose buffer still holds no valid command byte. -/
theorem syncLoop_skip (pre : List RdEvt) :
    ∀ (evs : List RdEvt) (buf : List Nat) (tries : Nat),
      (∀ e ∈ pre, tolerable e) → pre.length ≤ tries →
      ¬ checkcmd_linux (buf.getD 0 0) = 0 →
      ∃ buf2, ¬ checkcmd_linux (buf2.getD 0 0) = 0 ∧
        syncLoop (pre ++ evs) buf tries =
          ((syncLoop evs buf2 (tries - pre.length)).1,
           List.replicate pre.length 3 ++ (syncLoop evs buf2 (tries - pre.length)).2) := by
  induction pre with
  | nil =>
    intro evs buf tries _ _ hbuf
    exact ⟨buf, hbuf, by simp⟩
  | cons e pre ih =>
    intro evs buf tries htol hlen hbuf
    obtain ⟨t, rfl⟩ : ∃ t, tries = t + 1 := ⟨tries - 1, by simp at hlen; omega⟩
    have hpre : ∀ x ∈ pre, tolerable x := fun x hx => htol x (List.mem_cons_of_mem _ hx)
    have hlen2 : pre.length ≤ t := by simp at hlen; omega
    have htole := htol e (List.mem_cons_self e pre)
    cases e with
    | fail =>
      obtain ⟨buf2, hb2, heq⟩ := ih evs buf t hpre hlen2 hbuf
      refine ⟨buf2, hb2, ?_⟩
      rw [List.cons_append, syncLoop.eq_def]
      simp only [if_neg hbuf]
      rw [heq]
      simp [List.replicate_succ]
    | data l =>
      rw [tolerable] at htole
      rw [List.cons_append, syncLoop.eq_def]
      simp only [if_neg hbuf]
      rcases htole with h0 | ⟨h3, hg⟩
      · obtain ⟨buf2, hb2, heq⟩ := ih evs buf t hpre hlen2 hbuf
        refine ⟨buf2, hb2, ?_⟩
        rw [if_pos h0, heq]
        simp [List.replicate_succ]
      · have hgt : ¬ checkcmd_linux ((l.take 3).getD 0 0) = 0 := by
          rwa [getD_zero_take 3 l (by norm_num)]
        obtain ⟨buf2, hb2, heq⟩ := ih evs (l.take 3) t hpre hlen2 hgt
        refine ⟨buf2, hb2, ?_⟩
        rw [if_neg (by omega), if_neg (by omega), heq]
        simp [List.replicate_succ]

/-- A stream consisting only of tolerable reads never yields a header: the
sync loop runs out of retries and fails. -/
theorem syncLoop_timeout :
    ∀ (tries : Nat) (evs : List RdEvt) (buf : List Nat),
      (∀ e ∈ evs, tolerable e) → ¬ checkcmd_linux (buf.getD 0 0) = 0 →
      (syncLoop evs buf tries).1 = none := by
  intro tries
  induction tries with
  | zero =>
    intro evs buf _ hbuf
    rw [syncLoop.eq_def]
    simp only [if_neg hbuf]
    cases evs with
    | nil => rfl
    | cons e rest =>
      cases e with
      | fail => rfl
      | data l =>
        by_cases h0 : l.length = 0
        · simp [h0]
        · by_cases h3 : l.length < 3 <;> simp [h0, h3]
  | succ t ih =>
    intro evs buf htol hbuf
    rw [syncLoop.eq_def]
    simp only [if_neg hbuf]
    cases evs with
    | nil => simpa using ih [] buf (by simp) hbuf
    | cons e rest =>
      have htole := htol e (List.mem_cons_self e rest)
      have htolr : ∀ x ∈ rest, tolerable x := fun x hx => htol x (List.mem_cons_of_mem _ hx)
      cases e with
      | fail => simpa using ih rest buf htolr hbuf
      | data l =>
        rw [tolerable] at htole
        rcases htole with h0 | ⟨h3, hg⟩
        · have hr := ih rest buf htolr hbuf
          simp [h0, hr]
        · have hgt : ¬ checkcmd_linux ((l.take 3).getD 0 0) = 0 := by
            rwa [getD_zero_take 3 l (by norm_num)]
          have hr := ih rest (l.take 3) htolr hgt
          have hne : l ≠ [] := by intro h; rw [h] at h3; simp at h3
          simp [if_neg (show ¬ l.length = 0 by omega),
            if_neg (show ¬ l.length < 3 by omega), hr, hne]

/-- Full behaviour of ReceiveAns_linux on a stream that delivers a valid
header at once and then one payload read: the payload request applies the
64-byte padding quirk, a short read fails, and on success the declared
number of bytes is delivered. -/
theorem recv_header_payload (c m l : Nat) (p : List Nat) (rest : List RdEvt)
    (hc : checkcmd_linux c = 0) :
    (ReceiveAns_linux (RdEvt.data [c, m, l] :: RdEvt.data p :: rest)).reqs =
      [3, if ((m <<< 8) + l + 3) % 64 = 0 then (m <<< 8) + l + 1 else (m <<< 8) + l] ∧
    ((ReceiveAns_linux (RdEvt.data [c, m, l] :: RdEvt.data p :: rest)).result = none ↔
      p.length < (if ((m <<< 8) + l + 3) % 64 = 0 then (m <<< 8) + l + 1 else (m <<< 8) + l)) ∧
    ((if ((m <<< 8) + l + 3) % 64 = 0 then (m <<< 8) + l + 1 else (m <<< 8) + l) ≤ p.length →
      (ReceiveAns_linux (RdEvt.data [c, m, l] :: RdEvt.data p :: rest)).result =
        some ⟨c, m, l, p.take ((m <<< 8) + l)⟩) := by
  have hacc : syncLoop (RdEvt.data [c, m, l] :: RdEvt.data p :: rest) [0, 0, 0] 15 =
      (some ([c, m, l], RdEvt.data p :: rest), [3]) := by
    simpa using syncLoop_accept c m l (RdEvt.data p :: rest) [0, 0, 0] 14 (by decide) hc
  simp only [ReceiveAns_linux, hacc, List.getD, List.get?_cons_zero,
    List.get?_cons_succ, Option.getD_some]
  by_cases hlt : p.length <
      (if ((m <<< 8) + l + 3) % 64 = 0 then (m <<< 8) + l + 1 else (m <<< 8) + l)
  · rw [if_pos (by omega)]
    exact ⟨rfl, by simpa using hlt, fun hge => absurd hlt (Nat.not_lt.mpr hge)⟩
  · rw [if_neg (by omega)]
    exact ⟨rfl, by simp [hlt], fun _ => rfl⟩

/-- With no retries left (tries = 0, i.e. cpttimer = 15 in the source) the
sync loop performs one last read and then aborts no matter what that read
delivers - even a valid, complete header arriving on this 16th read is
discarded, because the source checks cpttimer > 15 before re-testing the
loop condition. -/
theorem syncLoop_exhausted (evs : List RdEvt) (buf : List Nat)
    (hbuf : ¬ checkcmd_linux (buf.getD 0 0) = 0) :
    syncLoop evs buf 0 = (none, [3]) := by
  rw [syncLoop.eq_def]
  simp only [if_neg hbuf]
  cases evs with
  | nil => rfl
  | cons e rest =>
    cases e with
    | fail => rfl
    | data l =>
      by_cases h0 : l.length = 0
      · simp [h0]
      · by_cases h3 : l.length < 3 <;> simp [h0, h3]

/-- A read that delivers a positive number of bytes smaller than the header
size makes the sync loop abort at once with a single read performed. -/
theorem syncLoop_partial (l : List Nat) (rest : List RdEvt) (buf : List Nat) (tries : Nat)
    (hbuf : ¬ checkcmd_linux (buf.getD 0 0) = 0) (h0 : ¬ l.length = 0) (h3 : l.length < 3) :
    syncLoop (RdEvt.data l :: rest) buf tries = (none, [3]) := by
  rw [syncLoop.eq_def]
  simp only [if_neg hbuf]
  rw [if_neg h0, if_pos h3]

/-! ## Claim theorems -/

/-- C2: for an answer whose accepted header declares payload length
n = (LenMsb shifted left by 8) + Len, ReceiveAns_linux requests exactly
n + 1 payload bytes when (3 + n) mod 64 = 0 and exactly n bytes otherwise;
it fails (KO, i.e. no answer) exactly when the payload read delivers fewer
bytes than requested, and on success it delivers the first n payload bytes,
discarding any trailing pad byte. -/
theorem claim_recv_payload_quirk (c m l : Nat) (p : List Nat) (rest : List RdEvt)
    (hc : checkcmd_linux c = 0) :
    (ReceiveAns_linux (RdEvt.data [c, m, l] :: RdEvt.data p :: rest)).reqs =
      [3, if ((m <<< 8) + l + 3) % 64 = 0 then (m <<< 8) + l + 1 else (m <<< 8) + l] ∧
    ((ReceiveAns_linux (RdEvt.data [c, m, l] :: RdEvt.data p :: rest)).result = none ↔
      p.length < (if ((m <<< 8) + l + 3) % 64 = 0 then (m <<< 8) + l + 1 else (m <<< 8) + l)) ∧
    ((if ((m <<< 8) + l + 3) % 64 = 0 then (m <<< 8) + l + 1 else (m <<< 8) + l) ≤ p.length →
      (ReceiveAns_linux (RdEvt.data [c, m, l] :: RdEvt.data p :: rest)).result =
        some ⟨c, m, l, p.take ((m <<< 8) + l)⟩) :=
  recv_header_payload c m l p rest hc

/-- Witness for C2 at the spec's T2 scenario: a read-register answer with
declared length 1 (no padding, request exactly 1 byte, deliver 0x55). -/
theorem claim_recv_payload_quirk_witness :
    checkcmd_linux 114 = 0 ∧
    ((ReceiveAns_linux (RdEvt.data [114, 0, 1] :: RdEvt.data [85] :: [])).reqs =
      [3, if ((0 <<< 8) + 1 + 3) % 64 = 0 then (0 <<< 8) + 1 + 1 else (0 <<< 8) + 1] ∧
    ((ReceiveAns_linux (RdEvt.data [114, 0, 1] :: RdEvt.data [85] :: [])).result = none ↔
      [85].length < (if ((0 <<< 8) + 1 + 3) % 64 = 0 then (0 <<< 8) + 1 + 1 else (0 <<< 8) + 1)) ∧
    ((if ((0 <<< 8) + 1 + 3) % 64 = 0 then (0 <<< 8) + 1 + 1 else (0 <<< 8) + 1) ≤ [85].length →
      (ReceiveAns_linux (RdEvt.data [114, 0, 1] :: RdEvt.data [85] :: [])).result =
        some ⟨114, 0, 1, [85].take ((0 <<< 8) + 1)⟩)) :=
  ⟨by decide, claim_recv_payload_quirk 114 0 1 [85] [] (by decide)⟩

/-- C3: the header sync loop accepts at most 15 invalid or empty reads
before failing.  A valid 3-byte header arriving on any of the first 15
reads (preceded by at most 14 tolerable reads) is accepted; but once 15
tolerable reads have been consumed, the loop fails after exactly one more
read no matter what that 16th read delivers - even a valid header - so the
retry budget is exactly 15; and a stream offering only failed/empty/
garbage reads makes ReceiveAns_linux fail with KO. -/
theorem claim_sync_retry_budget :
    (∀ (pre : List RdEvt) (c m l : Nat) (rest : List RdEvt),
      (∀ e ∈ pre, tolerable e) → pre.length ≤ 14 → checkcmd_linux c = 0 →
      (syncLoop (pre ++ RdEvt.data [c, m, l] :: rest) [0, 0, 0] 15).1 =
        some ([c, m, l], rest)) ∧
    (∀ (pre rest : List RdEvt),
      (∀ e ∈ pre, tolerable e) → pre.length = 15 →
      syncLoop (pre ++ rest) [0, 0, 0] 15 = (none, List.replicate 16 3)) ∧
    (∀ evs : List RdEvt, (∀ e ∈ evs, tolerable e) →
      (ReceiveAns_linux evs).result = none) := by
  refine ⟨?_, ?_, ?_⟩
  · intro pre c m l rest htol hlen hc
    obtain ⟨buf2, hb2, heq⟩ :=
      syncLoop_skip pre (RdEvt.data [c, m, l] :: rest) [0, 0, 0] 15 htol (by omega) (by decide)
    rw [heq]
    obtain ⟨t, ht⟩ : ∃ t, 15 - pre.length = t + 1 := ⟨14 - pre.length, by omega⟩
    rw [ht, syncLoop_accept c m l rest buf2 t hb2 hc]
  · intro pre rest htol hlen
    obtain ⟨buf2, hb2, heq⟩ :=
      syncLoop_skip pre rest [0, 0, 0] 15 htol (by omega) (by decide)
    rw [heq, hlen, show (15 : Nat) - 15 = 0 from rfl, syncLoop_exhausted rest buf2 hb2]
    decide
  · intro evs htol
    have h := syncLoop_timeout 15 evs [0, 0, 0] htol (by decide)
    simp [ReceiveAns_linux, h]

/-- Witness for C3: 14 failed reads followed by a valid read-register
header are accepted on the 15th read, while after 15 failed reads the same
valid header arriving on the 16th read is rejected with KO after exactly
16 reads. -/
theorem claim_sync_retry_budget_witness :
    (∀ e ∈ List.replicate 14 RdEvt.fail, tolerable e) ∧
    (List.replicate 14 RdEvt.fail).length ≤ 14 ∧ checkcmd_linux 114 = 0 ∧
    ((syncLoop (List.replicate 14 RdEvt.fail ++ RdEvt.data [114, 0, 1] :: []) [0, 0, 0] 15).1 =
      some ([114, 0, 1], [])) ∧
    (∀ e ∈ List.replicate 15 RdEvt.fail, tolerable e) ∧
    (List.replicate 15 RdEvt.fail).length = 15 ∧
    syncLoop (List.replicate 15 RdEvt.fail ++ [RdEvt.data [114, 0, 1]]) [0, 0, 0] 15 =
      (none, List.replicate 16 3) :=
  ⟨by decide, by decide, by decide,
    claim_sync_retry_budget.1 (List.replicate 14 RdEvt.fail) 114 0 1 []
      (by decide) (by decide) (by decide),
    by decide, by decide,
    claim_sync_retry_budget.2.1 (List.replicate 15 RdEvt.fail) [RdEvt.data [114, 0, 1]]
      (by decide) (by decide)⟩

/-- C5 counterexample: the source's checkcmd_linux also accepts the opcode
e (byte 101, tagged TO BE REMOVED in the source), which is not in the
21-opcode valid-cmd set the claim lists; so "every byte value outside that
set is classified as garbage" is false at 101. -/
theorem claim_checkcmd_valid_set_cex :
    checkcmd_linux 101 = 0 ∧ 101 ∉ claimedCmds := by decide

/-- C5 as amended: checkcmd_linux accepts a byte exactly when it is in the
claim's 21-opcode set or is the extra legacy opcode e (101); and for every
rejected first byte the sync reader resynchronizes, accepting a following
valid header instead of the garbage one. -/
theorem claim_checkcmd_valid_set :
    (∀ b : Nat, checkcmd_linux b = 0 ↔ (b ∈ claimedCmds ∨ b = 101)) ∧
    (∀ (b m l c m2 l2 : Nat) (rest : List RdEvt),
      ¬ checkcmd_linux b = 0 → checkcmd_linux c = 0 →
      (syncLoop (RdEvt.data [b, m, l] :: RdEvt.data [c, m2, l2] :: rest) [0, 0, 0] 15).1 =
        some ([c, m2, l2], rest)) := by
  constructor
  · intro b
    have h : checkcmd_linux b = 0 ↔ b ∈ validCmds := by
      unfold checkcmd_linux
      split
      · simp_all
      · simp_all [OK]
    rw [h]
    simp only [validCmds, claimedCmds, List.mem_cons, List.not_mem_nil, or_false]
    omega
  · intro b m l c m2 l2 rest hb hc
    have htole : tolerable (RdEvt.data [b, m, l]) := by
      rw [tolerable]
      exact Or.inr ⟨by simp, by simpa [List.getD] using hb⟩
    obtain ⟨buf2, hb2, heq⟩ :=
      syncLoop_skip [RdEvt.data [b, m, l]] (RdEvt.data [c, m2, l2] :: rest) [0, 0, 0] 15
        (by simpa using htole) (by simp) (by decide)
    rw [List.singleton_append] at heq
    rw [heq]
    rw [show (15 : Nat) - [RdEvt.data [b, m, l]].length = 13 + 1 from rfl,
      syncLoop_accept c m2 l2 rest buf2 13 hb2 hc]

/-- Witness for C5 as amended: byte 63 is rejected, and after one garbage
header the loop accepts a following read-register header. -/
theorem claim_checkcmd_valid_set_witness :
    (¬ checkcmd_linux 63 = 0) ∧ checkcmd_linux 114 = 0 ∧
    (syncLoop (RdEvt.data [63, 0, 0] :: RdEvt.data [114, 0, 1] :: []) [0, 0, 0] 15).1 =
      some ([114, 0, 1], []) :=
  ⟨by decide, by decide,
    claim_checkcmd_valid_set.2 63 0 0 114 0 1 [] (by decide) (by decide)⟩

/-- C8: whenever a header read delivers a positive byte count strictly
below CMD_HEADER_RX_SIZE (3), ReceiveAns_linux fails immediately: the
request trace stops at that read, consuming no further retries. -/
theorem claim_header_partial_abort (pre : List RdEvt) (l : List Nat) (rest : List RdEvt)
    (htol : ∀ e ∈ pre, tolerable e) (hlen : pre.length ≤ 15)
    (h0 : 0 < l.length) (h3 : l.length < 3) :
    (ReceiveAns_linux (pre ++ RdEvt.data l :: rest)).result = none ∧
    (ReceiveAns_linux (pre ++ RdEvt.data l :: rest)).reqs =
      List.replicate (pre.length + 1) 3 := by
  obtain ⟨buf2, hb2, heq⟩ :=
    syncLoop_skip pre (RdEvt.data l :: rest) [0, 0, 0] 15 htol (by omega) (by decide)
  have hpart := syncLoop_partial l rest buf2 (15 - pre.length) hb2 (by omega) h3
  have hs : syncLoop (pre ++ RdEvt.data l :: rest) [0, 0, 0] 15 =
      (none, List.replicate pre.length 3 ++ [3]) := by
    rw [heq, hpart]
  simp [ReceiveAns_linux, hs, List.replicate_succ']

/-- Witness for C8: a 2-byte header delivery aborts at once. -/
theorem claim_header_partial_abort_witness :
    (∀ e ∈ ([] : List RdEvt), tolerable e) ∧ ([] : List RdEvt).length ≤ 15 ∧
    0 < [114, 0].length ∧ [114, 0].length < 3 ∧
    ((ReceiveAns_linux ([] ++ RdEvt.data [114, 0] :: [])).result = none ∧
    (ReceiveAns_linux ([] ++ RdEvt.data [114, 0] :: [])).reqs =
      List.replicate (([] : List RdEvt).length + 1) 3) :=
  ⟨by decide, by decide, by decide, by decide,
    claim_header_partial_abort [] [114, 0] [] (by decide) (by decide)
      (by decide) (by decide)⟩

/-- C4 counterexample: an answer whose first payload byte is 2 - neither
ACK_OK (1) nor ACK_KO (0) - makes the handshake succeed, contradicting
the claim that every value other than ACK_OK fails the handshake. -/
theorem claim_open_handshake_ack_cex :
    (lgw_com_open_linux [RdEvt.data [108, 0, 1], RdEvt.data [2]]).ret = LGW_COM_SUCCESS ∧
    (ReceiveAns_linux [RdEvt.data [108, 0, 1], RdEvt.data [2]]).result =
      some ⟨108, 0, 1, [2]⟩ ∧
    (2 : Nat) ≠ ACK_OK := by decide

/-- C4 as amended: given a received answer, the firmware handshake in
lgw_com_open_linux succeeds if and only if the answer payload's first
byte differs from ACK_KO (the source tests only for ACK_KO, line 312,
not for equality with ACK_OK). -/
theorem claim_open_handshake_ack (events : List RdEvt) (a : AnsSettings)
    (h : (ReceiveAns_linux events).result = some a) :
    (lgw_com_open_linux events).ret = LGW_COM_SUCCESS ↔ a.Rxbuf.getD 0 0 ≠ ACK_KO := by
  simp only [lgw_com_open_linux, h]
  split
  · rename_i hko
    simp only [LGW_COM_SUCCESS, LGW_COM_ERROR]
    simpa using hko
  · rename_i hko
    simp only [LGW_COM_SUCCESS]
    simpa using hko

/-- Witness for C4 as amended at the ACK_OK answer. -/
theorem claim_open_handshake_ack_witness :
    (ReceiveAns_linux [RdEvt.data [108, 0, 1], RdEvt.data [1]]).result =
      some ⟨108, 0, 1, [1]⟩ ∧
    ((lgw_com_open_linux [RdEvt.data [108, 0, 1], RdEvt.data [1]]).ret = LGW_COM_SUCCESS ↔
      (AnsSettings.mk 108 0 1 [1]).Rxbuf.getD 0 0 ≠ ACK_KO) :=
  ⟨by decide, claim_open_handshake_ack [RdEvt.data [108, 0, 1], RdEvt.data [1]]
    ⟨108, 0, 1, [1]⟩ (by decide)⟩

/-- C7 counterexample: a frame of total length Tlen = 5 with only 3 bytes
written is a short write, yet SendCmd_linux returns OK, not KO, so a
short write is not treated as an error by the source (lines 190-192 only
log a warning). -/
theorem claim_sendcmd_short_write_cex :
    SendCmd_linux ⟨119, 0, 1, 18, [171]⟩ 3 = OK ∧
    (0 : Int) ≤ 3 ∧ 3 ≠ Tlen ⟨119, 0, 1, 18, [171]⟩ ∧ OK ≠ KO := by decide

/-- C7 as amended: SendCmd_linux fails exactly when the underlying write
returns a negative count; a short but nonnegative write count does not
make it fail. -/
theorem claim_sendcmd_short_write (cs : CmdSettings) (lencheck : Int) :
    SendCmd_linux cs lencheck = KO ↔ lencheck < 0 := by
  unfold SendCmd_linux
  split <;> simp_all [OK, KO]

/-- C9 counterexample: on an ACK_KO handshake answer, open returns an
error but the handle stays published through com_target_ptr and the
byte-stream endpoint is never closed, contradicting the claimed
teardown. -/
theorem claim_open_failure_teardown_cex :
    (lgw_com_open_linux [RdEvt.data [108, 0, 1], RdEvt.data [0]]).ret = LGW_COM_ERROR ∧
    (lgw_com_open_linux [RdEvt.data [108, 0, 1], RdEvt.data [0]]).published = true ∧
    (lgw_com_open_linux [RdEvt.data [108, 0, 1], RdEvt.data [0]]).fdClosed = false := by
  decide

/-- C9 as amended: whenever the firmware handshake fails (no valid answer,
or first payload byte ACK_KO), lgw_com_open_linux returns LGW_COM_ERROR
but performs no teardown: the endpoint stays open and com_target_ptr
still holds the published handle. -/
theorem claim_open_failure_teardown (events : List RdEvt)
    (h : (ReceiveAns_linux events).result = none ∨
      ∃ a, (ReceiveAns_linux events).result = some a ∧ a.Rxbuf.getD 0 0 = ACK_KO) :
    (lgw_com_open_linux events).ret = LGW_COM_ERROR ∧
    (lgw_com_open_linux events).published = true ∧
    (lgw_com_open_linux events).fdClosed = false := by
  rcases h with h | ⟨a, h, hko⟩
  · simp [lgw_com_open_linux, h]
  · have hko2 : a.Rxbuf[0]?.getD 0 = ACK_KO := by simpa using hko
    simp [lgw_com_open_linux, h, hko2]

/-- Witness for C9 as amended at an ACK_KO answer. -/
theorem claim_open_failure_teardown_witness :
    ((ReceiveAns_linux [RdEvt.data [108, 0, 1], RdEvt.data [0]]).result = none ∨
      ∃ a, (ReceiveAns_linux [RdEvt.data [108, 0, 1], RdEvt.data [0]]).result = some a ∧
        a.Rxbuf.getD 0 0 = ACK_KO) ∧
    ((lgw_com_open_linux [RdEvt.data [108, 0, 1], RdEvt.data [0]]).ret = LGW_COM_ERROR ∧
     (lgw_com_open_linux [RdEvt.data [108, 0, 1], RdEvt.data [0]]).published = true ∧
     (lgw_com_open_linux [RdEvt.data [108, 0, 1], RdEvt.data [0]]).fdClosed = false) :=
  ⟨Or.inr ⟨⟨108, 0, 1, [0]⟩, by decide, by decide⟩,
    claim_open_failure_teardown [RdEvt.data [108, 0, 1], RdEvt.data [0]]
      (Or.inr ⟨⟨108, 0, 1, [0]⟩, by decide, by decide⟩)⟩

/-- C10: the receiver accepts any answer whose header carries a valid
opcode and delivers it as the exchange's answer, with no echo check
against the request opcode: a write-register exchange (request opcode w,
119) accepts an answer tagged with opcode r (114) and succeeds. -/
theorem claim_answer_echo_unchecked :
    (∀ (c m l : Nat) (p : List Nat) (rest : List RdEvt),
      checkcmd_linux c = 0 →
      (if ((m <<< 8) + l + 3) % 64 = 0 then (m <<< 8) + l + 1 else (m <<< 8) + l) ≤
        p.length →
      (ReceiveAns_linux (RdEvt.data [c, m, l] :: RdEvt.data p :: rest)).result =
        some ⟨c, m, l, p.take ((m <<< 8) + l)⟩) ∧
    ((lgw_com_w_linux 18 171 [RdEvt.data [114, 0, 1], RdEvt.data [1]]).req.Cmd = 119 ∧
     (lgw_com_w_linux 18 171 [RdEvt.data [114, 0, 1], RdEvt.data [1]]).ret =
       LGW_COM_SUCCESS ∧
     (ReceiveAns_linux [RdEvt.data [114, 0, 1], RdEvt.data [1]]).result =
       some ⟨114, 0, 1, [1]⟩ ∧
     (114 : Nat) ≠ 119) := by
  constructor
  · intro c m l p rest hc hp
    exact (recv_header_payload c m l p rest hc).2.2 hp
  · exact ⟨by decide, by decide, by decide, by decide⟩

/-- Witness for C10's universal part at a cross-opcode answer. -/
theorem claim_answer_echo_unchecked_witness :
    checkcmd_linux 114 = 0 ∧
    ((if ((0 <<< 8) + 1 + 3) % 64 = 0 then (0 <<< 8) + 1 + 1 else (0 <<< 8) + 1) ≤
      [1].length) ∧
    (ReceiveAns_linux (RdEvt.data [114, 0, 1] :: RdEvt.data [1] :: [])).result =
      some ⟨114, 0, 1, [1].take ((0 <<< 8) + 1)⟩ :=
  ⟨by decide, by decide,
    claim_answer_echo_unchecked.1 114 0 1 [1] [] (by decide) (by decide)⟩

/-- Every terminal branch of the write-burst chunk loop unlocks exactly
once, and all its wire actions happen while the lock is held. -/
theorem lockCheck_wbLoop (Wp size addr : Nat) (data : List Nat) (ans : Nat → Bool) :
    ∀ (chunk_size k cptalc : Nat),
      lockCheck (wbLoop Wp size addr data ans k chunk_size cptalc).acts 1 = true := by
  intro chunk_size
  induction chunk_size using Nat.strong_induction_on with
  | _ n ih =>
    intro k cptalc
    rw [wbLoop.eq_def]
    by_cases hW : Wp + 1 < n
    · rw [dif_pos hW]
      by_cases ha : ans k
      · have hr := ih (n - (Wp + 1)) (by omega) (k + 1) (cptalc + (Wp + 1))
        simp [ha, lockCheck, hr]
      · simp [ha, lockCheck]
    · rw [dif_neg hW]
      by_cases h0 : 0 < n
      · by_cases ha : ans k <;> simp [h0, ha, lockCheck]
      · simp [h0, lockCheck]

/-- Every terminal branch of the read-burst chunk loop unlocks exactly
once, and all its wire actions happen while the lock is held. -/
theorem lockCheck_rbLoop (Rp size addr : Nat) (ans : Nat → Option (List Nat)) :
    ∀ (chunk_size k : Nat) (acc : List Nat),
      lockCheck (rbLoop Rp size addr ans k chunk_size acc).acts 1 = true := by
  intro chunk_size
  induction chunk_size using Nat.strong_induction_on with
  | _ n ih =>
    intro k acc
    rw [rbLoop.eq_def]
    by_cases hR : Rp + 1 < n
    · rw [dif_pos hR]
      rcases ha : ans k with _ | buf
      · simp [ha, lockCheck]
      · simp only [ha]
        simp [lockCheck]
        exact ih (n - (Rp + 1)) (by omega) (k + 1) _
    · rw [dif_neg hR]
      by_cases h0 : 0 < n
      · rcases ha : ans k with _ | buf <;> simp [h0, ha, lockCheck]
      · simp [h0, lockCheck]

/-- C6: every public wire operation - the open handshake, write_register,
read_register, write_burst and read_burst - acquires the link lock before
its first wire action, performs all sends and receives while holding it
(bursts keep it across all chunks), and releases it on every return path,
leaving the lock free on every return. -/
theorem claim_lock_discipline :
    (∀ events : List RdEvt, lockCheck (lgw_com_open_linux events).acts 0 = true) ∧
    (∀ (address data : Nat) (events : List RdEvt),
      lockCheck (lgw_com_w_linux address data events).acts 0 = true) ∧
    (∀ (address : Nat) (events : List RdEvt),
      lockCheck (lgw_com_r_linux address events).acts 0 = true) ∧
    (∀ (Wp addr : Nat) (data : List Nat) (size : Nat) (ans : Nat → Bool),
      lockCheck (lgw_com_wb_linux Wp addr data size ans).acts 0 = true) ∧
    (∀ (Rp addr size : Nat) (ans : Nat → Option (List Nat)),
      lockCheck (lgw_com_rb_linux Rp addr size ans).acts 0 = true) := by
  refine ⟨?_, ?_, ?_, ?_, ?_⟩
  · intro events
    unfold lgw_com_open_linux
    rcases h : (ReceiveAns_linux events).result with _ | a
    · simp [h, lockCheck]
    · simp only [h]
      split <;> simp [lockCheck]
  · intro address data events
    unfold lgw_com_w_linux
    rcases h : (ReceiveAns_linux events).result with _ | a <;> simp [h, lockCheck]
  · intro address events
    unfold lgw_com_r_linux
    rcases h : (ReceiveAns_linux events).result with _ | a <;> simp [h, lockCheck]
  · intro Wp addr data size ans
    have hr := lockCheck_wbLoop Wp size addr data ans size 0 0
    simp [lgw_com_wb_linux, lockCheck, hr]
  · intro Rp addr size ans
    have hr := lockCheck_rbLoop Rp size addr ans size 0 []
    simp [lgw_com_rb_linux, lockCheck, hr]

/-! ## Write-burst chunking (C1) -/

theorem slice_length (data : List Nat) (a w : Nat) : (slice data a w).length = w := by
  simp [slice]

/-- A slice of length b + c splits at b. -/
theorem slice_append (data : List Nat) (a b c : Nat) :
    slice data a (b + c) = slice data a b ++ slice data (a + b) c := by
  simp only [slice]
  rw [List.range_add b c, List.map_append, List.map_map]
  congr 1
  apply List.map_congr_left
  intro i _
  simp only [Function.comp_apply]
  congr 1
  omega

/-- The slice covering the whole buffer is the buffer. -/
theorem slice_all (data : List Nat) : slice data 0 data.length = data := by
  apply List.ext_getElem
  · simp [slice]
  · intro i h1 h2
    simp only [slice, List.getElem_map, List.getElem_range, Nat.add_zero]
    exact List.getD_eq_getElem data 0 h2

theorem slice_take (data : List Nat) (a w m : Nat) :
    (slice data a w).take m = slice data a (min m w) := by
  simp only [slice, ← List.map_take, List.take_range]

theorem take_eq_slice (data : List Nat) (w : Nat) (h : w ≤ data.length) :
    data.take w = slice data 0 w := by
  conv_lhs => rw [← slice_all data]
  rw [slice_take]
  congr 1
  omega

/-- Reassembling a uint16 length from the msb/lsb bytes the burst loop
stores (as the final-chunk copy loop does at line 475) gives it back. -/
theorem msb_lsb_cnt (n : Nat) (h : n < 65536) :
    (((n >>> 8) % 256) <<< 8) + ((n - ((n >>> 8) <<< 8)) % 256) = n := by
  simp only [Nat.shiftRight_eq_div_pow, Nat.shiftLeft_eq]
  norm_num
  omega

/-- After the first chunk, the remaining write-burst loop (with every
answer OK) emits middle chunks tagged y of full width and one final chunk
tagged z whose payload is the residue, and the emitted payloads
concatenate to the remaining input window. -/
theorem wbLoop_tail (Wp size addr : Nat) (data : List Nat)
    (hlen : data.length = size) (hgt : Wp + 1 < size) (h16 : size < 65536) :
    ∀ n, ∀ k cptalc : Nat, 0 < n → n < size → cptalc + n = size →
    ∃ ys zc,
      (wbLoop Wp size addr data (fun _ => true) k n cptalc).ret = LGW_COM_SUCCESS ∧
      (wbLoop Wp size addr data (fun _ => true) k n cptalc).chunks = ys ++ [zc] ∧
      (∀ y ∈ ys, y.Cmd = 121 ∧ y.Value.length = Wp + 1) ∧
      ys.length = (n + Wp) / (Wp + 1) - 1 ∧
      zc.Cmd = 122 ∧ 0 < zc.Value.length ∧ zc.Value.length ≤ Wp + 1 ∧
      ((ys ++ [zc]).map CmdSettings.Value).flatten = slice data cptalc n := by
  intro n
  induction n using Nat.strong_induction_on with
  | _ n ih =>
    intro k cptalc h0 hlt hsum
    by_cases hW : Wp + 1 < n
    · have hne : ¬ n = size := by omega
      obtain ⟨ys, zc, hret, hchunks, hys, hyslen, hzcmd, hz0, hzW, hjoin⟩ :=
        ih (n - (Wp + 1)) (by omega) (k + 1) (cptalc + (Wp + 1)) (by omega) (by omega)
          (by omega)
      have heq : wbLoop Wp size addr data (fun _ => true) k n cptalc =
          ⟨(wbLoop Wp size addr data (fun _ => true) (k + 1) (n - (Wp + 1))
              (cptalc + (Wp + 1))).ret,
            ⟨121, ((Wp + 1) >>> 8) % 256, ((Wp + 1) - (((Wp + 1) >>> 8) <<< 8)) % 256, addr,
              slice data cptalc (Wp + 1)⟩ ::
              (wbLoop Wp size addr data (fun _ => true) (k + 1) (n - (Wp + 1))
                (cptalc + (Wp + 1))).chunks,
            Act.send :: Act.recv ::
              (wbLoop Wp size addr data (fun _ => true) (k + 1) (n - (Wp + 1))
                (cptalc + (Wp + 1))).acts⟩ := by
        rw [wbLoop.eq_def, dif_pos hW]
        simp [hne]
      refine ⟨⟨121, ((Wp + 1) >>> 8) % 256, ((Wp + 1) - (((Wp + 1) >>> 8) <<< 8)) % 256,
        addr, slice data cptalc (Wp + 1)⟩ :: ys, zc, ?_, ?_, ?_, ?_, hzcmd, hz0, hzW, ?_⟩
      · rw [heq]; exact hret
      · rw [heq]; simp [hchunks]
      · intro y hy
        rcases List.mem_cons.mp hy with rfl | hy
        · exact ⟨rfl, by simp [slice_length]⟩
        · exact hys y hy
      · have h1le : 1 ≤ ((n - (Wp + 1)) + Wp) / (Wp + 1) :=
          (Nat.one_le_div_iff (Nat.succ_pos Wp)).mpr (by omega)
        have hdiv : (n + Wp) / (Wp + 1) = ((n - (Wp + 1)) + Wp) / (Wp + 1) + 1 := by
          rw [show n + Wp = ((n - (Wp + 1)) + Wp) + (Wp + 1) by omega,
            Nat.add_div_right _ (Nat.succ_pos Wp)]
        rw [List.length_cons, hyslen, hdiv]
        generalize ((n - (Wp + 1)) + Wp) / (Wp + 1) = d at h1le ⊢
        omega
      · have hsplit : slice data cptalc (Wp + 1) ++
            slice data (cptalc + (Wp + 1)) (n - (Wp + 1)) = slice data cptalc n := by
          rw [← slice_append]
          congr 1
          omega
        simp only [List.cons_append, List.map_cons, List.flatten_cons, hjoin]
        exact hsplit
    · have hcnt := msb_lsb_cnt n (by omega)
      have hsz : ¬ size ≤ Wp + 1 := by omega
      have heq : wbLoop Wp size addr data (fun _ => true) k n cptalc =
          ⟨LGW_COM_SUCCESS,
            [⟨122, (n >>> 8) % 256, (n - ((n >>> 8) <<< 8)) % 256, addr,
              slice data cptalc ((((n >>> 8) % 256) <<< 8) + ((n - ((n >>> 8) <<< 8)) % 256))⟩],
            [Act.send, Act.recv, Act.unlock]⟩ := by
        rw [wbLoop.eq_def, dif_neg hW]
        simp [h0, hsz]
      refine ⟨[], ⟨122, (n >>> 8) % 256, (n - ((n >>> 8) <<< 8)) % 256, addr,
        slice data cptalc ((((n >>> 8) % 256) <<< 8) + ((n - ((n >>> 8) <<< 8)) % 256))⟩,
        ?_, ?_, by simp, ?_, rfl, ?_, ?_, ?_⟩
      · rw [heq]
      · rw [heq]; simp
      · have hone : (n + Wp) / (Wp + 1) = 1 := Nat.div_eq_of_lt_le (by omega) (by omega)
        simp [hone]
      · rw [slice_length, hcnt]; exact h0
      · rw [slice_length, hcnt]; omega
      · simp only [List.nil_append, List.map_cons, List.map_nil, List.flatten_cons,
          List.flatten_nil, List.append_nil]
        rw [hcnt]

/-- C1: for a write burst of size S strictly above the chunk capacity
W = Wp + 1 (with every chunk answered OK), the sequencer emits exactly one
first chunk tagged x carrying the first W bytes, then middle chunks tagged
y of W bytes each, numbering ceil((S - W) / W) - 1, then exactly one end
chunk tagged z whose residue payload R satisfies 0 < R ≤ W - in
particular a positive multiple of W still ends with a z chunk rather than
failing - and the chunk payloads concatenate to the input buffer. -/
theorem claim_wb_multichunk (Wp addr : Nat) (data : List Nat) (size : Nat)
    (hlen : data.length = size) (hgt : Wp + 1 < size) (h16 : size < 65536) :
    ∃ xc mids zc,
      (lgw_com_wb_linux Wp addr data size (fun _ => true)).ret = LGW_COM_SUCCESS ∧
      (lgw_com_wb_linux Wp addr data size (fun _ => true)).chunks = xc :: (mids ++ [zc]) ∧
      xc.Cmd = 120 ∧ xc.Value = data.take (Wp + 1) ∧
      (∀ y ∈ mids, y.Cmd = 121 ∧ y.Value.length = Wp + 1) ∧
      mids.length = ((size - (Wp + 1)) + Wp) / (Wp + 1) - 1 ∧
      zc.Cmd = 122 ∧ 0 < zc.Value.length ∧ zc.Value.length ≤ Wp + 1 ∧
      ((xc :: (mids ++ [zc])).map CmdSettings.Value).flatten = data := by
  obtain ⟨ys, zc, hret, hchunks, hys, hyslen, hzcmd, hz0, hzW, hjoin⟩ :=
    wbLoop_tail Wp size addr data hlen hgt h16 (size - (Wp + 1)) 1 (Wp + 1)
      (by omega) (by omega) (by omega)
  have htop : lgw_com_wb_linux Wp addr data size (fun _ => true) =
      ⟨(wbLoop Wp size addr data (fun _ => true) 1 (size - (Wp + 1)) (Wp + 1)).ret,
        ⟨120, ((Wp + 1) >>> 8) % 256, ((Wp + 1) - (((Wp + 1) >>> 8) <<< 8)) % 256, addr,
          slice data 0 (Wp + 1)⟩ ::
          (wbLoop Wp size addr data (fun _ => true) 1 (size - (Wp + 1)) (Wp + 1)).chunks,
        Act.lock :: Act.send :: Act.recv ::
          (wbLoop Wp size addr data (fun _ => true) 1 (size - (Wp + 1)) (Wp + 1)).acts⟩ := by
    unfold lgw_com_wb_linux
    rw [wbLoop.eq_def, dif_pos hgt]
    simp
  refine ⟨⟨120, ((Wp + 1) >>> 8) % 256, ((Wp + 1) - (((Wp + 1) >>> 8) <<< 8)) % 256, addr,
    slice data 0 (Wp + 1)⟩, ys, zc, ?_, ?_, rfl, ?_, hys, ?_, hzcmd, hz0, hzW, ?_⟩
  · rw [htop]; exact hret
  · rw [htop]; simp [hchunks]
  · exact (take_eq_slice data (Wp + 1) (by omega)).symm
  · rw [hyslen]
  · simp only [List.map_cons, List.flatten_cons, hjoin]
    rw [show slice data (Wp + 1) (size - (Wp + 1)) = slice data (0 + (Wp + 1)) (size - (Wp + 1))
        by rw [Nat.zero_add], ← slice_append]
    rw [show (Wp + 1) + (size - (Wp + 1)) = size by omega, ← hlen, slice_all]

/-- Witness for C1 at the spec's T4 scenario: W = 4, S = 10, bytes 0..9,
address 0xA0, giving chunks x(0..3), y(4..7), z(8 9). -/
theorem claim_wb_multichunk_witness :
    ([0, 1, 2, 3, 4, 5, 6, 7, 8, 9] : List Nat).length = 10 ∧ 3 + 1 < 10 ∧ 10 < 65536 ∧
    (∃ xc mids zc,
      (lgw_com_wb_linux 3 160 [0, 1, 2, 3, 4, 5, 6, 7, 8, 9] 10 (fun _ => true)).ret =
        LGW_COM_SUCCESS ∧
      (lgw_com_wb_linux 3 160 [0, 1, 2, 3, 4, 5, 6, 7, 8, 9] 10 (fun _ => true)).chunks =
        xc :: (mids ++ [zc]) ∧
      xc.Cmd = 120 ∧ xc.Value = [0, 1, 2, 3, 4, 5, 6, 7, 8, 9].take (3 + 1) ∧
      (∀ y ∈ mids, y.Cmd = 121 ∧ y.Value.length = 3 + 1) ∧
      mids.length = ((10 - (3 + 1)) + 3) / (3 + 1) - 1 ∧
      zc.Cmd = 122 ∧ 0 < zc.Value.length ∧ zc.Value.length ≤ 3 + 1 ∧
      ((xc :: (mids ++ [zc])).map CmdSettings.Value).flatten =
        [0, 1, 2, 3, 4, 5, 6, 7, 8, 9]) :=
  ⟨rfl, by decide, by decide,
    claim_wb_multichunk 3 160 [0, 1, 2, 3, 4, 5, 6, 7, 8, 9] 10 rfl (by decide) (by decide)⟩

end LoragwCom
